import Mathlib

/-!
Shallow embedding of `src/static/js/script.js`:

```
fetch("/data")
  .then(res => res.json())
  .then(data => {
    let table = document.getElementById("ranking");
    data.forEach(row => {
      let tr = document.createElement("tr");
      row.forEach(cell => {
        let td = document.createElement("td");
        td.innerText = cell;
        tr.appendChild(td);
      });
      table.appendChild(tr);
    });
  });
```

Modelling decisions for the browser environment (the script's host, not part
of the repository):

* JSON values are the inductive `Json`; JSON numbers are modelled as
  integers (no claim depends on floating-point formatting).
* `fetch` resolves with a `Response` for every HTTP answer, whatever its
  status, and rejects only on network failure; `Response.json` parses the
  body without looking at the status.  The parse result of the body is
  carried in the `Response` as `bodyJson` (`none` when the body is not
  valid JSON), since `JSON.parse` itself belongs to the host.
* The document is abstracted to the one element the script looks up:
  `document.getElementById("ranking")` is an `Option (List Node)` input,
  `none` when the element is absent, otherwise the element's child list.
* The `innerText` setter follows the HTML-spec algorithm: the assigned
  string is cut at line-break sequences (CRLF, CR, LF), each maximal run of
  other characters becomes one text node and each break one `br` element,
  and these replace the element's children.  This is modelled as
  normalizing the breaks to LF (`normalizeBreaks`, folded into
  `innerTextOf`) and then splitting on LF (`lineFragment`); the composite
  is the spec's conversion.  The matching getter semantics renders a `br`
  as one newline (`Node.visibleText`).
* Assigning a non-string to `innerText` coerces it with JavaScript's
  `String()` conversion, except that `null` becomes the empty string
  (`LegacyNullToEmptyString` on the attribute).
* `forEach` on a non-array (`row.forEach` when a row is not an array) and
  `appendChild` on `null` (`table.appendChild` when the element is absent)
  throw a `TypeError`; an exception thrown inside a `forEach` callback
  aborts the iteration and propagates, so earlier appends persist.
-/

/-- A JSON value, as produced by `res.json()`.  Numbers are modelled as
integers. -/
inductive Json where
| null : Json
| bool : Bool → Json
| num : Int → Json
| str : String → Json
| arr : List Json → Json
| obj : List (String × Json) → Json

mutual

/-- JavaScript's `String()` conversion of a JSON value: strings unchanged,
numbers in decimal, `true`/`false`, `null` → `"null"`, arrays via
`Array.prototype.toString` (comma-joined elements, `null` elements
contributing the empty string), plain objects → `"[object Object]"`. -/
def jsString : Json → String
| Json.null => "null"
| Json.bool b => cond b "true" "false"
| Json.num n => toString n
| Json.str s => s
| Json.arr xs => jsStringElems xs
| Json.obj _ => "[object Object]"

/-- Comma-joined element list of `Array.prototype.toString`: a `null`
element contributes the empty string, any other element its `String()`
conversion. -/
def jsStringElems : List Json → String
| [] => ""
| x :: xs =>
  let s := match x with
    | Json.null => ""
    | y => jsString y
  match xs with
  | [] => s
  | _ :: _ => s ++ "," ++ jsStringElems xs

end

/-- Normalization of line-break sequences: every CRLF pair and every lone
CR becomes one LF.  The `innerText` setter turns each such sequence into
one `br` element, so a string and its normalization produce the same
rendered fragment. -/
def normChars : List Char → List Char
| [] => []
| '\r' :: '\n' :: rest => '\n' :: normChars rest
| '\r' :: rest => '\n' :: normChars rest
| c :: rest => c :: normChars rest

/-- `normChars` on a `String`. -/
def normalizeBreaks (s : String) : String :=
  String.mk (normChars s.data)

/-- The text that the assignment `td.innerText = cell` makes visible: the
`String()` conversion of the value — with `null` coerced to the empty
string (`LegacyNullToEmptyString`) — and with line-break sequences
normalized to LF, since the setter renders every CRLF, CR or LF as one
`br` element, which displays as one newline. -/
def innerTextOf : Json → String
| Json.null => ""
| j => normalizeBreaks (jsString j)

/-- A DOM node: an element with a tag name and a child list, or a text
node. -/
inductive Node where
| elem : String → List Node → Node
| text : String → Node

/-- The child list of a node (text nodes have none). -/
def Node.children : Node → List Node
| Node.elem _ cs => cs
| Node.text _ => []

/-- Whether a node is an element node. -/
def Node.isElem : Node → Bool
| Node.elem _ _ => true
| Node.text _ => false

/-- The element children of a node. -/
def Node.elemChildren (n : Node) : List Node :=
  n.children.filter Node.isElem

mutual

/-- The visible text of a node, as the `innerText` getter renders it: a
text node shows its characters, a `br` element shows as one newline, any
other element shows the visible text of its children, in document
order. -/
def Node.visibleText : Node → String
| Node.text s => s
| Node.elem "br" _ => "\n"
| Node.elem _ cs => visibleTextList cs

/-- The concatenated visible text of a list of nodes. -/
def visibleTextList : List Node → String
| [] => ""
| n :: ns => n.visibleText ++ visibleTextList ns

end

/-- Extends the fragment of `fragChars` with one more ordinary character at
the front: it joins the current text run when one is open (the fragment
starts with a text node), otherwise it opens a new one (in front of a `br`
or at the end). -/
def consText (c : Char) : List Node → List Node
| Node.text t :: ns => Node.text (String.mk (c :: t.data)) :: ns
| ns => Node.text (String.mk [c]) :: ns

/-- The rendered text fragment of the `innerText` setter, on a
line-break-normalized character list: each maximal run of non-LF
characters becomes one text node and each LF one `br` element. -/
def fragChars : List Char → List Node
| [] => []
| c :: rest =>
  if c = '\n' then Node.elem "br" [] :: fragChars rest
  else consText c (fragChars rest)

/-- `fragChars` on a `String`: the child list the `innerText` setter
installs for a (normalized) assigned string. -/
def lineFragment (s : String) : List Node :=
  fragChars s.data

/-- One iteration of the inner `row.forEach` body: `document.createElement("td")`
followed by `td.innerText = cell` builds this node, which `tr.appendChild(td)`
then attaches to the row.  The children are the setter's rendered text
fragment of the coerced value: text runs interleaved with one `br` per
line-break sequence (and no children for the empty string). -/
def renderCell (cell : Json) : Node :=
  Node.elem "td" (lineFragment (innerTextOf cell))

/-- The `tr` element built for one payload row: `document.createElement("tr")`
followed by the inner `row.forEach`, which appends one `renderCell` per value,
in order.  Defined only to name the result; for a non-array row the inner
`forEach` throws before appending anything, so the array branch is the only
one `runRows` reaches. -/
def rowNode : Json → Node
| Json.arr cells => Node.elem "tr" (cells.map renderCell)
| _ => Node.elem "tr" []

/-- A JavaScript exception aborting the promise chain. -/
inductive JsError where
| typeError : JsError
| syntaxError : JsError
| networkError : JsError
deriving DecidableEq

/-- The outer `data.forEach(row => ...)` loop, acting on the state of the
`table` variable (`none` when `getElementById` returned `null`, otherwise
the element's child list).  Each iteration:

* `row.forEach` on a non-array row throws a `TypeError` (the fresh `tr` is
  never attached);
* otherwise the `tr` is built from the row's values and
  `table.appendChild(tr)` either throws a `TypeError` (`table` is `null`)
  or appends it;
* a throw aborts the remaining iterations, keeping earlier appends. -/
def runRows : Option (List Node) → List Json → Option (List Node) × Except JsError Unit
| tbl, [] => (tbl, Except.ok ())
| tbl, row :: rest =>
  match row with
  | Json.arr cells =>
    let tr := Node.elem "tr" (cells.map renderCell)
    match tbl with
    | none => (none, Except.error JsError.typeError)
    | some children => runRows (some (children ++ [tr])) rest
  | _ => (tbl, Except.error JsError.typeError)

/-- An HTTP request as issued by `fetch`. -/
structure Request where
  url : String
  method : String
  headers : List (String × String)
  body : Option String
deriving DecidableEq

/-- The one request the script issues: `fetch("/data")` — the fixed relative
path, the default method, no headers, no body. -/
def theRequest : Request :=
  { url := "/data", method := "GET", headers := [], body := none }

/-- An HTTP response as `fetch` resolves with it: the status code and the
result of parsing the body as JSON (`none` when the body is not valid
JSON).  `fetch` resolves with such a response for every HTTP status. -/
structure Response where
  status : Nat
  bodyJson : Option Json

/-- Whether the response status is a success status (`Response.ok` in the
browser).  The script never consults it. -/
def Response.okStatus (r : Response) : Bool :=
  decide (200 ≤ r.status) && decide (r.status ≤ 299)

/-- `res.json()`: parses the body, ignoring the status; rejects with a
`SyntaxError` when the body is not valid JSON. -/
def Response.json (r : Response) : Except JsError Json :=
  match r.bodyJson with
  | some j => Except.ok j
  | none => Except.error JsError.syntaxError

/-- The observable outcome of one run of the script: the network requests
it issued, the final state of the `ranking` element (`none` when absent,
otherwise its child list), and whether the promise chain resolved or ended
in an unhandled rejection. -/
structure RunResult where
  requests : List Request
  container : Option (List Node)
  outcome : Except JsError Unit

/-- One run of the whole script.  `net` is the network: the response (or
network failure) for a given request.  `ranking` is
`document.getElementById("ranking")`: `none` when the element is absent,
otherwise its child list before the run.

The chain `fetch("/data").then(res => res.json()).then(data => ...)`:
a network failure or a body that is not valid JSON rejects the chain before
any DOM access; `data.forEach` on a non-array payload throws a `TypeError`;
otherwise the rows are rendered by `runRows`. -/
def run (net : Request → Except JsError Response) (ranking : Option (List Node)) : RunResult :=
  match net theRequest with
  | Except.error e => ⟨[theRequest], ranking, Except.error e⟩
  | Except.ok res =>
    match res.json with
    | Except.error e => ⟨[theRequest], ranking, Except.error e⟩
    | Except.ok data =>
      match data with
      | Json.arr rows =>
        let out := runRows ranking rows
        ⟨[theRequest], out.1, out.2⟩
      | _ => ⟨[theRequest], ranking, Except.error JsError.typeError⟩

/-- Whether a JSON value is an array (the values on which `forEach` is
defined). -/
def Json.isArr : Json → Bool
| Json.arr _ => true
| _ => false

/-- `consText` adds exactly its character to the front of the fragment's
visible text. -/
theorem vtl_consText (c : Char) (ns : List Node) :
    (visibleTextList (consText c ns)).data = c :: (visibleTextList ns).data := by
  cases ns with
  | nil => rfl
  | cons m ms =>
    cases m with
    | text t => rfl
    | elem tag cs => rfl

/-- Set-then-get roundtrip at character level: the visible text of the
setter's fragment is the assigned (normalized) character list. -/
theorem vtl_fragChars_data : ∀ l : List Char, (visibleTextList (fragChars l)).data = l := by
  intro l
  induction l with
  | nil => rfl
  | cons c rest ih =>
    by_cases hc : c = '\n'
    · subst hc
      show (("\n" : String) ++ visibleTextList (fragChars rest)).data = '\n' :: rest
      rw [String.data_append, ih]
      rfl
    · simp only [fragChars]
      rw [if_neg hc, vtl_consText, ih]

/-- Set-then-get roundtrip: the visible text of the fragment installed for
a string is that string. -/
theorem vtl_lineFragment (s : String) : visibleTextList (lineFragment s) = s :=
  String.ext (vtl_fragChars_data s.data)

/-- The visible text of a rendered cell is exactly the text the `innerText`
assignment makes visible. -/
theorem visibleText_renderCell (c : Json) : (renderCell c).visibleText = innerTextOf c := by
  show visibleTextList (lineFragment (innerTextOf c)) = innerTextOf c
  exact vtl_lineFragment (innerTextOf c)

/-- `consText` preserves the fragment shape: only text nodes and childless
`br` elements. -/
theorem consText_shape (c : Char) (ns : List Node)
    (h : ∀ n ∈ ns, (∃ s, n = Node.text s) ∨ n = Node.elem "br" []) :
    ∀ n ∈ consText c ns, (∃ s, n = Node.text s) ∨ n = Node.elem "br" [] := by
  intro n hn
  cases ns with
  | nil =>
    simp only [consText, List.mem_singleton] at hn
    exact Or.inl ⟨String.mk [c], hn⟩
  | cons m ms =>
    cases m with
    | text t =>
      simp only [consText, List.mem_cons] at hn
      rcases hn with h1 | h1
      · exact Or.inl ⟨String.mk (c :: t.data), h1⟩
      · exact h n (List.mem_cons_of_mem _ h1)
    | elem tag cs =>
      simp only [consText, List.mem_cons] at hn
      rcases hn with h1 | h1
      · exact Or.inl ⟨String.mk [c], h1⟩
      · exact h n (List.mem_cons.mpr h1)

/-- Every node of the setter's fragment is a text node or a childless `br`
element: plain text is never parsed into further markup. -/
theorem fragChars_shape : ∀ (l : List Char) (n : Node), n ∈ fragChars l →
    (∃ s, n = Node.text s) ∨ n = Node.elem "br" [] := by
  intro l
  induction l with
  | nil => intro n hn; simp [fragChars] at hn
  | cons c rest ih =>
    intro n hn
    by_cases hc : c = '\n'
    · subst hc
      have hn' : n ∈ Node.elem "br" [] :: fragChars rest := hn
      rcases List.mem_cons.mp hn' with h | h
      · exact Or.inr h
      · exact ih n h
    · simp only [fragChars] at hn
      rw [if_neg hc] at hn
      exact consText_shape c (fragChars rest) ih n hn

/-- When every row is an array, the outer loop appends one `rowNode` per
row, in payload order, and the chain resolves. -/
theorem runRows_all_arr : ∀ (rows : List Json) (init : List Node),
    (∀ r ∈ rows, r.isArr = true) →
    runRows (some init) rows = (some (init ++ rows.map rowNode), Except.ok ()) := by
  intro rows
  induction rows with
  | nil => intro init _; simp [runRows]
  | cons row rest ih =>
    intro init h
    have hrow : row.isArr = true := h row (by simp)
    cases row with
    | arr cells =>
      have hres := ih (init ++ [Node.elem "tr" (cells.map renderCell)])
        (fun r hr => h r (by simp [hr]))
      simp only [runRows]
      rw [hres]
      simp [rowNode]
    | null => simp [Json.isArr] at hrow
    | bool b => simp [Json.isArr] at hrow
    | num n => simp [Json.isArr] at hrow
    | str s => simp [Json.isArr] at hrow
    | obj o => simp [Json.isArr] at hrow

/-- Whatever the rows are, the outer loop only ever appends: the initial
children stay, in place, at the front. -/
theorem runRows_grows : ∀ (rows : List Json) (init : List Node),
    ∃ added, (runRows (some init) rows).1 = some (init ++ added) := by
  intro rows
  induction rows with
  | nil => intro init; exact ⟨[], by simp [runRows]⟩
  | cons row rest ih =>
    intro init
    cases row with
    | arr cells =>
      obtain ⟨added, ha⟩ := ih (init ++ [Node.elem "tr" (cells.map renderCell)])
      refine ⟨Node.elem "tr" (cells.map renderCell) :: added, ?_⟩
      simp only [runRows]
      rw [ha]
      simp
    | null => exact ⟨[], by simp [runRows]⟩
    | bool b => exact ⟨[], by simp [runRows]⟩
    | num n => exact ⟨[], by simp [runRows]⟩
    | str s => exact ⟨[], by simp [runRows]⟩
    | obj o => exact ⟨[], by simp [runRows]⟩

/-- When the rows are some arrays followed by a first non-array row, the
loop appends exactly the rows before it and then throws: the earlier
appends persist, nothing after is appended. -/
theorem runRows_bad_at : ∀ (pre : List Json) (bad : Json) (rest : List Json) (init : List Node),
    (∀ r ∈ pre, r.isArr = true) → bad.isArr = false →
    runRows (some init) (pre ++ bad :: rest)
      = (some (init ++ pre.map rowNode), Except.error JsError.typeError) := by
  intro pre
  induction pre with
  | nil =>
    intro bad rest init _ hbad
    cases bad with
    | arr cells => simp [Json.isArr] at hbad
    | null => simp [runRows]
    | bool b => simp [runRows]
    | num n => simp [runRows]
    | str s => simp [runRows]
    | obj o => simp [runRows]
  | cons row pre ih =>
    intro bad rest init h hbad
    have hrow : row.isArr = true := h row (by simp)
    cases row with
    | arr cells =>
      have hres := ih bad rest (init ++ [Node.elem "tr" (cells.map renderCell)])
        (fun r hr => h r (by simp [hr])) hbad
      simp only [List.cons_append, runRows, List.append_eq]
      rw [hres]
      simp [rowNode]
    | null => simp [Json.isArr] at hrow
    | bool b => simp [Json.isArr] at hrow
    | num n => simp [Json.isArr] at hrow
    | str s => simp [Json.isArr] at hrow
    | obj o => simp [Json.isArr] at hrow

/-- A run whose response body parses to an all-array payload appends one
`rowNode` per row and resolves. -/
theorem run_success (net : Request → Except JsError Response) (res : Response)
    (rows : List Json) (init : List Node)
    (hnet : net theRequest = Except.ok res)
    (hbody : res.bodyJson = some (Json.arr rows))
    (harr : ∀ r ∈ rows, r.isArr = true) :
    run net (some init)
      = ⟨[theRequest], some (init ++ rows.map rowNode), Except.ok ()⟩ := by
  simp only [run, hnet, Response.json, hbody]
  rw [runRows_all_arr rows init harr]

/-- Claim C1: for every row `r` of length `n` in the parsed payload, the row
element appended to the container contains exactly `n` cell elements, and
for each index `i < n` the `i`-th cell's visible text equals the string form
of `r`'s `i`-th value. -/
theorem c1_rendered_row_structure (net : Request → Except JsError Response)
    (res : Response) (rows : List Json) (init : List Node)
    (hnet : net theRequest = Except.ok res)
    (hbody : res.bodyJson = some (Json.arr rows))
    (harr : ∀ r ∈ rows, r.isArr = true) :
    (run net (some init)).container = some (init ++ rows.map rowNode) ∧
    ∀ k, k < rows.length → ∀ cells, rows.getD k Json.null = Json.arr cells →
      ((rows.map rowNode).getD k (Node.text "")).children.length = cells.length ∧
      ∀ i, i < cells.length →
        (((rows.map rowNode).getD k (Node.text "")).children.getD i (Node.text "")).visibleText
          = innerTextOf (cells.getD i Json.null) := by
  constructor
  · rw [run_success net res rows init hnet hbody harr]
  · intro k hk cells hcell
    have hk' : k < (rows.map rowNode).length := by simpa using hk
    have hgd : (rows.map rowNode).getD k (Node.text "") = rowNode (Json.arr cells) := by
      rw [List.getD_eq_getElem _ _ hk', List.getElem_map, ← hcell,
        List.getD_eq_getElem _ _ hk]
    rw [hgd]
    have hch : (rowNode (Json.arr cells)).children = cells.map renderCell := by
      simp [rowNode, Node.children]
    rw [hch]
    refine ⟨by simp, ?_⟩
    intro i hi
    have hi' : i < (cells.map renderCell).length := by simpa using hi
    rw [List.getD_eq_getElem _ _ hi', List.getElem_map, visibleText_renderCell,
      List.getD_eq_getElem _ _ hi]

/-- The spec's scenario payload `[["Alice", 10], ["Bob", 7]]`. -/
def sampleRows : List Json :=
  [Json.arr [Json.str "Alice", Json.num 10], Json.arr [Json.str "Bob", Json.num 7]]

/-- A network resolving every request with HTTP 200 and the scenario
payload. -/
def sampleNet : Request → Except JsError Response :=
  fun _ => Except.ok ⟨200, some (Json.arr sampleRows)⟩

/-- Claim C1, applied to the scenario payload: the first rendered row has
two cells and its second cell shows "10". -/
theorem c1_rendered_row_structure_witness :
    (run sampleNet (some [])).container = some ([] ++ sampleRows.map rowNode) ∧
    ((sampleRows.map rowNode).getD 0 (Node.text "")).children.length = 2 ∧
    (((sampleRows.map rowNode).getD 0 (Node.text "")).children.getD 1 (Node.text "")).visibleText
      = innerTextOf (Json.num 10) := by
  have h := c1_rendered_row_structure sampleNet ⟨200, some (Json.arr sampleRows)⟩
    sampleRows [] rfl rfl (by decide)
  have h0 := h.2 0 (by decide) [Json.str "Alice", Json.num 10] rfl
  exact ⟨h.1, h0.1, h0.2 1 (by decide)⟩

/-- Claim C2: the top-to-bottom order of appended row elements equals the
payload's row order, and within each appended row the left-to-right cell
order equals the order of the row's values. -/
theorem c2_order_preservation (net : Request → Except JsError Response)
    (res : Response) (rows : List Json) (init : List Node)
    (hnet : net theRequest = Except.ok res)
    (hbody : res.bodyJson = some (Json.arr rows))
    (harr : ∀ r ∈ rows, r.isArr = true) :
    (run net (some init)).container = some (init ++ rows.map rowNode) ∧
    ∀ cells, (rowNode (Json.arr cells)).children = cells.map renderCell := by
  refine ⟨?_, ?_⟩
  · rw [run_success net res rows init hnet hbody harr]
  · intro cells
    simp [rowNode, Node.children]

/-- Claim C2, applied to the scenario payload. -/
theorem c2_order_preservation_witness :
    (run sampleNet (some [])).container = some ([] ++ sampleRows.map rowNode) ∧
    (rowNode (Json.arr [Json.str "Bob", Json.num 7])).children
      = [Json.str "Bob", Json.num 7].map renderCell := by
  have h := c2_order_preservation sampleNet ⟨200, some (Json.arr sampleRows)⟩
    sampleRows [] rfl rfl (by decide)
  exact ⟨h.1, h.2 [Json.str "Bob", Json.num 7]⟩

/-- A network answering every request with HTTP 500 and a body that parses
as the JSON array `[[1]]`. -/
def net500 : Request → Except JsError Response :=
  fun _ => Except.ok ⟨500, some (Json.arr [Json.arr [Json.num 1]])⟩

/-- Claim C3 is false as stated: the script never inspects the response
status, so a non-success (HTTP 500) response whose body parses as `[[1]]`
appends a row and the chain resolves — neither "no rows appended" nor
"unhandled rejection" holds. -/
theorem c3_counterexample :
    net500 theRequest = Except.ok ⟨500, some (Json.arr [Json.arr [Json.num 1]])⟩ ∧
    Response.okStatus ⟨500, some (Json.arr [Json.arr [Json.num 1]])⟩ = false ∧
    (run net500 (some [])).container
      = some [Node.elem "tr" [Node.elem "td" [Node.text "1"]]] ∧
    (run net500 (some [])).outcome = Except.ok () :=
  ⟨rfl, by decide, rfl, rfl⟩

/-- Claim C3 amended: a non-success response whose body is not valid JSON
results in no rows appended and an unhandled rejection (the status itself
is never consulted; only the body-parse failure aborts the chain). -/
theorem c3_amended_bad_body (net : Request → Except JsError Response)
    (res : Response) (c : Option (List Node))
    (hnet : net theRequest = Except.ok res)
    (_hns : res.okStatus = false)
    (hbody : res.bodyJson = none) :
    (run net c).container = c ∧
    (run net c).outcome = Except.error JsError.syntaxError := by
  simp [run, hnet, Response.json, hbody]

/-- A network answering every request with HTTP 500 and a body that is not
valid JSON. -/
def net500bad : Request → Except JsError Response :=
  fun _ => Except.ok ⟨500, none⟩

/-- Claim C3 (amended), applied to an HTTP 500 response with a non-JSON
body. -/
theorem c3_amended_bad_body_witness :
    (run net500bad (some [])).container = some [] ∧
    (run net500bad (some [])).outcome = Except.error JsError.syntaxError :=
  c3_amended_bad_body net500bad ⟨500, none⟩ (some []) rfl (by decide) rfl

/-- A network answering every request with HTTP 200 and the empty JSON
array as body. -/
def netEmptyArr : Request → Except JsError Response :=
  fun _ => Except.ok ⟨200, some (Json.arr [])⟩

/-- Claim C4 is false as stated: with no `ranking` element in the page but
an empty-array payload, nothing after the container lookup fails — the
outer loop has no iterations and the chain resolves. -/
theorem c4_counterexample :
    netEmptyArr theRequest = Except.ok ⟨200, some (Json.arr [])⟩ ∧
    (run netEmptyArr none).container = none ∧
    (run netEmptyArr none).outcome = Except.ok () :=
  ⟨rfl, rfl, rfl⟩

/-- Claim C4 amended: when no `ranking` element exists and the parsed
payload is a non-empty array, the first iteration of the loop fails with an
unhandled `TypeError` (with the empty array, the run completes without
failure). -/
theorem c4_amended_missing_container (net : Request → Except JsError Response)
    (res : Response) (rows : List Json)
    (hnet : net theRequest = Except.ok res)
    (hbody : res.bodyJson = some (Json.arr rows))
    (hne : rows ≠ []) :
    (run net none).container = none ∧
    (run net none).outcome = Except.error JsError.typeError := by
  cases rows with
  | nil => exact absurd rfl hne
  | cons row rest =>
    simp only [run, hnet, Response.json, hbody]
    cases row <;> simp [runRows]

/-- A network answering every request with HTTP 200 and the one-empty-row
payload `[[]]`. -/
def netOneRow : Request → Except JsError Response :=
  fun _ => Except.ok ⟨200, some (Json.arr [Json.arr []])⟩

/-- Claim C4 (amended), applied to the payload `[[]]` with the `ranking`
element absent. -/
theorem c4_amended_missing_container_witness :
    (run netOneRow none).container = none ∧
    (run netOneRow none).outcome = Except.error JsError.typeError :=
  c4_amended_missing_container netOneRow ⟨200, some (Json.arr [Json.arr []])⟩
    [Json.arr []] rfl rfl (by simp)

/-- Claim C5: when the parsed payload is the empty array `[]`, zero rows
are appended and the container is exactly as before the run. -/
theorem c5_empty_payload (net : Request → Except JsError Response)
    (res : Response) (c : Option (List Node))
    (hnet : net theRequest = Except.ok res)
    (hbody : res.bodyJson = some (Json.arr [])) :
    (run net c).container = c ∧ (run net c).outcome = Except.ok () := by
  simp [run, hnet, Response.json, hbody, runRows]

/-- Claim C5, applied to a container that already holds a child. -/
theorem c5_empty_payload_witness :
    (run netEmptyArr (some [Node.text "kept"])).container = some [Node.text "kept"] ∧
    (run netEmptyArr (some [Node.text "kept"])).outcome = Except.ok () :=
  c5_empty_payload netEmptyArr ⟨200, some (Json.arr [])⟩ (some [Node.text "kept"]) rfl rfl

/-- Claim C6: for every payload (and every network behaviour), the run only
appends: every child present before the run is still present, in its
original position, at the front of the container — it is never cleared or
replaced. -/
theorem c6_only_appends (net : Request → Except JsError Response) (init : List Node) :
    ∃ added, (run net (some init)).container = some (init ++ added) := by
  cases hnet : net theRequest with
  | error e => exact ⟨[], by simp [run, hnet]⟩
  | ok res =>
    cases hbody : res.bodyJson with
    | none => exact ⟨[], by simp [run, hnet, Response.json, hbody]⟩
    | some data =>
      cases data with
      | arr rows =>
        obtain ⟨added, ha⟩ := runRows_grows rows init
        exact ⟨added, by simp only [run, hnet, Response.json, hbody]; exact ha⟩
      | null => exact ⟨[], by simp [run, hnet, Response.json, hbody]⟩
      | bool b => exact ⟨[], by simp [run, hnet, Response.json, hbody]⟩
      | num n => exact ⟨[], by simp [run, hnet, Response.json, hbody]⟩
      | str s => exact ⟨[], by simp [run, hnet, Response.json, hbody]⟩
      | obj o => exact ⟨[], by simp [run, hnet, Response.json, hbody]⟩

/-- Claim C7: every run issues exactly one network request, to the fixed
relative path `/data`, with the default retrieval method, no headers and no
body. -/
theorem c7_single_fixed_request (net : Request → Except JsError Response)
    (ranking : Option (List Node)) :
    (run net ranking).requests
      = [{ url := "/data", method := "GET", headers := [], body := none }] := by
  have hreq : theRequest = { url := "/data", method := "GET", headers := [], body := none } := rfl
  rw [← hreq]
  cases hnet : net theRequest with
  | error e => simp [run, hnet]
  | ok res =>
    cases hbody : res.bodyJson with
    | none => simp [run, hnet, Response.json, hbody]
    | some data => cases data <;> simp [run, hnet, Response.json, hbody]

/-- Claim C8 is false as stated: the `innerText` setter converts each
line-break sequence of the assigned string into a `br` element, so the cell
rendered for the value `"a\nb"` has an element child derived from the
value. -/
theorem c8_counterexample :
    renderCell (Json.str "a\nb")
      = Node.elem "td" [Node.text "a", Node.elem "br" [], Node.text "b"] ∧
    (renderCell (Json.str "a\nb")).elemChildren = [Node.elem "br" []] ∧
    (renderCell (Json.str "a\nb")).elemChildren ≠ [] :=
  ⟨rfl, rfl, List.cons_ne_nil _ _⟩

/-- Claim C8 amended: every cell value is stored via default
text-assignment semantics and never parsed as markup — each child of the
rendered cell is either a text node or a childless `br` element produced
from a line-break sequence in the value's text form (in particular, markup
characters such as `<` and `>` never create elements), and the cell's
visible text equals the value coerced to text, with line-break sequences
rendered as newlines. -/
theorem c8_plain_text_cells (cell : Json) :
    (∀ n ∈ (renderCell cell).children, (∃ s, n = Node.text s) ∨ n = Node.elem "br" []) ∧
    (renderCell cell).visibleText = innerTextOf cell := by
  refine ⟨?_, visibleText_renderCell cell⟩
  intro n hn
  exact fragChars_shape (innerTextOf cell).data n hn

/-- Claim C9: rendering is not atomic — when the row at index `k` is the
first non-array row, the run ends in an unhandled error, the rows at
indices `0 .. k-1` (exactly `k` of them) remain appended, and nothing at or
after index `k` is appended. -/
theorem c9_first_bad_row (net : Request → Except JsError Response)
    (res : Response) (rows : List Json) (k : Nat) (init : List Node)
    (hnet : net theRequest = Except.ok res)
    (hbody : res.bodyJson = some (Json.arr rows))
    (hk : k < rows.length)
    (hgood : ∀ j, j < k → (rows.getD j Json.null).isArr = true)
    (hbad : (rows.getD k Json.null).isArr = false) :
    (run net (some init)).container = some (init ++ (rows.take k).map rowNode) ∧
    ((rows.take k).map rowNode).length = k ∧
    (run net (some init)).outcome = Except.error JsError.typeError := by
  have hdecomp : rows.take k ++ rows.getD k Json.null :: rows.drop (k + 1) = rows := by
    rw [List.getD_eq_getElem _ _ hk, ← List.drop_eq_getElem_cons hk]
    exact List.take_append_drop k rows
  have hpre : ∀ r ∈ rows.take k, r.isArr = true := by
    intro r hr
    obtain ⟨j, hj, hje⟩ := List.mem_iff_getElem.mp hr
    have hjk : j < k := by
      rw [List.length_take] at hj
      exact (lt_min_iff.mp hj).1
    have hjr : j < rows.length := lt_trans hjk hk
    have hget : (rows.take k)[j] = rows[j] := List.getElem_take rows
    have := hgood j hjk
    rw [List.getD_eq_getElem _ _ hjr] at this
    rw [← hje, hget]
    exact this
  have hrun : runRows (some init) rows
      = (some (init ++ (rows.take k).map rowNode), Except.error JsError.typeError) := by
    conv_lhs => rw [← hdecomp]
    exact runRows_bad_at (rows.take k) (rows.getD k Json.null) (rows.drop (k + 1))
      init hpre hbad
  refine ⟨?_, ?_, ?_⟩
  · simp only [run, hnet, Response.json, hbody]
    rw [hrun]
  · rw [List.length_map, List.length_take]
    exact Nat.min_eq_left (Nat.le_of_lt hk)
  · simp only [run, hnet, Response.json, hbody]
    rw [hrun]

/-- The payload `[[1], 2]`: a well-formed first row, then a non-array
row. -/
def mixedRows : List Json := [Json.arr [Json.num 1], Json.num 2]

/-- A network answering every request with HTTP 200 and the payload
`[[1], 2]`. -/
def netMixed : Request → Except JsError Response :=
  fun _ => Except.ok ⟨200, some (Json.arr mixedRows)⟩

/-- Claim C9, applied to the payload `[[1], 2]`: the row for `[1]` stays
appended, the run ends in a `TypeError`. -/
theorem c9_first_bad_row_witness :
    (run netMixed (some [])).container = some ([] ++ (mixedRows.take 1).map rowNode) ∧
    ((mixedRows.take 1).map rowNode).length = 1 ∧
    (run netMixed (some [])).outcome = Except.error JsError.typeError :=
  c9_first_bad_row netMixed ⟨200, some (Json.arr mixedRows)⟩ mixedRows 1 []
    rfl rfl (by decide) (by decide) (by decide)

/-- Claim C10: the renderer is deterministic — two runs whose responses
carry the same parsed payload, on the same initial container state, yield
the same final container and the same outcome, whatever else (e.g. the
status) differs between the responses. -/
theorem c10_deterministic (netA netB : Request → Except JsError Response)
    (c : Option (List Node)) (resA resB : Response) (p : Json)
    (hA : netA theRequest = Except.ok resA)
    (hB : netB theRequest = Except.ok resB)
    (hbA : resA.bodyJson = some p)
    (hbB : resB.bodyJson = some p) :
    (run netA c).container = (run netB c).container ∧
    (run netA c).outcome = (run netB c).outcome := by
  simp only [run, hA, hB, Response.json, hbA, hbB]
  cases p <;> simp

/-- A network answering with HTTP 200 and the payload `[["x"]]`. -/
def netDetA : Request → Except JsError Response :=
  fun _ => Except.ok ⟨200, some (Json.arr [Json.arr [Json.str "x"]])⟩

/-- A network answering with HTTP 500 and the same payload `[["x"]]`. -/
def netDetB : Request → Except JsError Response :=
  fun _ => Except.ok ⟨500, some (Json.arr [Json.arr [Json.str "x"]])⟩

/-- Claim C10, applied to two responses with the same payload but different
statuses. -/
theorem c10_deterministic_witness :
    (run netDetA (some [])).container = (run netDetB (some [])).container ∧
    (run netDetA (some [])).outcome = (run netDetB (some [])).outcome :=
  c10_deterministic netDetA netDetB (some []) ⟨200, some (Json.arr [Json.arr [Json.str "x"]])⟩
    ⟨500, some (Json.arr [Json.arr [Json.str "x"]])⟩ (Json.arr [Json.arr [Json.str "x"]])
    rfl rfl rfl rfl
